import Mathlib

/-!
Shallow embedding of the DVID datasource core of this repository: the
credentialed transport of `src/neuroglancer/datasource/dvid/api.ts`
(`applyCredentials`, the status classifier of `fetchWithDVIDCredentials`)
and, further below, the merge-graph mesh resolver, fragment-assembly
orchestrator and binary fragment decoders of
`src/neuroglancer/datasource/dvid/backend.ts`.

TypeScript promises are embedded as explicit outcome values; the network is
an oracle passed in as a function; the unbounded retry/recursion of the
source is bounded by an explicit fuel argument, with a distinguished
out-of-fuel result so that no real behaviour is conflated with divergence.
-/

namespace DVID

/-- A DVID credential token (`DVIDToken` in `api.ts`): a string. -/
abbrev DVIDToken := String

/-- The part of the `RequestInit` fetch options that `applyCredentials` can
read or modify: the header list and the `credentials` mode. -/
structure RequestInit where
  headers : List (String × String)
  credentials : Option String
deriving DecidableEq, Repr

/-- JavaScript's `String.prototype.startsWith`, embedded over the character
list of the string. -/
def strStartsWith (s pre : String) : Bool :=
  pre.data.isPrefixOf s.data

/-- From `api.ts` lines 147-162, `applyCredentials(input)` applied to a
credential and an init: copy the init; if the target URL starts with
`https`, either attach an `Authorization: Bearer <token>` header (non-empty
token) or set `credentials: 'include'` (empty token); otherwise return the
copy unchanged. The JavaScript object spread that installs the header is
embedded as removing any existing `Authorization` entry and appending the
new one. -/
def applyCredentials (input : String) (credentials : DVIDToken)
    (init : RequestInit) : RequestInit :=
  if strStartsWith input "https" then
    if credentials.length > 0 then
      { init with
        headers := init.headers.filter (fun p => p.1 ≠ "Authorization") ++
          [("Authorization", "Bearer " ++ credentials)] }
    else
      { init with credentials := some "include" }
  else
    init

/-- The two retry directives the error callback of
`fetchWithDVIDCredentials` can return to `fetchWithCredentials`. -/
inductive ErrorAction where
  | refresh
  | retry
deriving DecidableEq, Repr

/-- From `api.ts` lines 173-184: the error callback passed by
`fetchWithDVIDCredentials` classifies a failure response by status code:
403 or 401 → `refresh`; 504 → `retry`; any other status → rethrow the
error (embedded as `Except.error status`). -/
def classifyStatus (status : Nat) : Except Nat ErrorAction :=
  if status = 403 ∨ status = 401 then Except.ok ErrorAction.refresh
  else if status = 504 then Except.ok ErrorAction.retry
  else Except.error status

/-- The server-side outcome of one fetch attempt of a transport call. -/
inductive FetchOutcome where
  | success (v : Nat)
  | failure (status : Nat)
  | cancelled
deriving DecidableEq, Repr

/-- Result of the transport retry loop, recording the total number of fetch
attempts made and of credential refreshes requested. -/
inductive TransportResult where
  | ok (v : Nat) (attempts refreshes : Nat)
  | err (status : Nat) (attempts refreshes : Nat)
  | cancelled (attempts refreshes : Nat)
  | outOfFuel
deriving DecidableEq, Repr

/-- Modelled from the spec: `fetchWithCredentials`
(`neuroglancer/credentials_provider/http_request`), the retry loop that
`fetchWithDVIDCredentials` instantiates, is not part of this repository.
Per §4.1 of the spec it performs the call and, on a failure response,
consults the status classifier: `refresh` → request a credential refresh
and re-attempt the same call; `retry` → re-attempt without refreshing; a
rethrown error propagates to the caller with no retry; cancellation
observed at a suspension point rejects with a cancellation outcome.
`respond n` is the outcome of attempt `n`; `attempt` and `refreshes` count
the attempts made and refreshes requested so far; `fuel` bounds the loop,
which the source leaves unbounded. -/
def fetchWithCredentialsRun (respond : Nat → FetchOutcome) :
    Nat → Nat → Nat → TransportResult
  | 0, _, _ => TransportResult.outOfFuel
  | fuel + 1, attempt, refreshes =>
    match respond attempt with
    | FetchOutcome.success v => TransportResult.ok v (attempt + 1) refreshes
    | FetchOutcome.cancelled => TransportResult.cancelled (attempt + 1) refreshes
    | FetchOutcome.failure s =>
      match classifyStatus s with
      | Except.ok ErrorAction.refresh =>
        fetchWithCredentialsRun respond fuel (attempt + 1) (refreshes + 1)
      | Except.ok ErrorAction.retry =>
        fetchWithCredentialsRun respond fuel (attempt + 1) refreshes
      | Except.error s' => TransportResult.err s' (attempt + 1) refreshes

/-- C1: a transport call that receives a failure response is classified by
status code exactly as: 401 or 403 → one credential refresh followed by a
re-attempt of the same call; 504 → a re-attempt with no refresh; every
other status → the error propagates to the caller with no further attempt
and no refresh. (Loop semantics spec-modelled; the classifier is the
source's.) -/
theorem C1_transport_status_classification (respond : Nat → FetchOutcome)
    (fuel attempt refreshes s : Nat)
    (h : respond attempt = FetchOutcome.failure s) :
    ((s = 401 ∨ s = 403) →
      fetchWithCredentialsRun respond (fuel + 1) attempt refreshes =
        fetchWithCredentialsRun respond fuel (attempt + 1) (refreshes + 1)) ∧
    (s = 504 →
      fetchWithCredentialsRun respond (fuel + 1) attempt refreshes =
        fetchWithCredentialsRun respond fuel (attempt + 1) refreshes) ∧
    (s ≠ 401 → s ≠ 403 → s ≠ 504 →
      fetchWithCredentialsRun respond (fuel + 1) attempt refreshes =
        TransportResult.err s (attempt + 1) refreshes) := by
  refine ⟨fun hs => ?_, fun hs => ?_, fun h1 h3 h5 => ?_⟩ <;>
    simp only [fetchWithCredentialsRun, h, classifyStatus]
  · rcases hs with hs | hs <;> simp [hs]
  · simp [hs]
  · have : ¬(s = 403 ∨ s = 401) := by tauto
    simp [this, h5]

/-- Witness for C1: the spec's concrete transport scenario: a first attempt
answered with status 401, a second attempt succeeding after the refresh;
the call completes with the second attempt's value, two attempts and
exactly one refresh invocation. -/
theorem C1_transport_status_classification_witness :
    fetchWithCredentialsRun
      (fun n => if n = 0 then FetchOutcome.failure 401 else FetchOutcome.success 7)
      2 0 0 = TransportResult.ok 7 2 1 := by
  have h := (C1_transport_status_classification
    (fun n => if n = 0 then FetchOutcome.failure 401 else FetchOutcome.success 7)
    1 0 0 401 rfl).1 (Or.inl rfl)
  rw [h]
  rfl

/-- C8: per transport attempt at a secure (`https`) URL, exactly one
credential-attachment mode is used: with a non-empty held token the request
carries an `Authorization: Bearer <token>` header and the `credentials`
mode is left as the caller supplied it (ambient cookie inclusion is not
enabled); with an empty token the request sets `credentials: 'include'`
and the header list is exactly the caller's (no bearer header is added). -/
theorem C8_credential_modes (input : String) (cred : DVIDToken)
    (init : RequestInit) (hsec : strStartsWith input "https" = true) :
    (cred.length > 0 →
      ("Authorization", "Bearer " ++ cred) ∈
          (applyCredentials input cred init).headers ∧
        (applyCredentials input cred init).credentials = init.credentials) ∧
    (cred.length = 0 →
      (applyCredentials input cred init).credentials = some "include" ∧
        (applyCredentials input cred init).headers = init.headers) := by
  constructor
  · intro hlen
    unfold applyCredentials
    rw [hsec]
    simp [hlen]
  · intro hlen
    unfold applyCredentials
    rw [hsec]
    simp [hlen]

/-- Witness for C8: at a concrete secure URL, the token `"t"` is attached
as `Bearer t` with the credentials mode untouched, and the empty token
switches to `credentials: 'include'` with the header list untouched. -/
theorem C8_credential_modes_witness :
    (("Authorization", "Bearer " ++ "t") ∈
        (applyCredentials "https://dvid" "t" ⟨[], none⟩).headers ∧
      (applyCredentials "https://dvid" "t" ⟨[], none⟩).credentials = none) ∧
    ((applyCredentials "https://dvid" "" ⟨[], none⟩).credentials =
        some "include" ∧
      (applyCredentials "https://dvid" "" ⟨[], none⟩).headers = []) := by
  refine ⟨(C8_credential_modes "https://dvid" "t" ⟨[], none⟩ (by decide)).1
    (by decide), (C8_credential_modes "https://dvid" "" ⟨[], none⟩ (by decide)).2 rfl⟩

/-- C10: for a target URL that does not start with `https`, the
credential-application step returns the request options unchanged —
whatever token is held, no `Authorization` header is attached and ambient
cookie inclusion is not enabled. -/
theorem C10_insecure_scheme_unchanged (input : String) (cred : DVIDToken)
    (init : RequestInit) (h : strStartsWith input "https" = false) :
    applyCredentials input cred init = init := by
  unfold applyCredentials
  rw [h]
  simp

/-- Witness for C10: a plain-`http` URL leaves concrete request options
untouched even though a non-empty token is held. -/
theorem C10_insecure_scheme_unchanged_witness :
    applyCredentials "http://dvid" "secret" ⟨[("X", "y")], none⟩ =
      ⟨[("X", "y")], none⟩ :=
  C10_insecure_scheme_unchanged "http://dvid" "secret" ⟨[("X", "y")], none⟩
    (by decide)

/-- A binary `ArrayBuffer` response: its list of bytes. -/
abbrev ArrayBuffer := List Nat

/-- The outcome of one `makeRequestWithCredentials` promise as observed by
the mesh code of `backend.ts`: resolved with a value, rejected with an
error, or rejected with a cancellation. The `catch` handlers of
`backend.ts` never inspect the rejection value, so no payload is carried. -/
inductive FetchResult (α : Type) where
  | ok (v : α)
  | err
  | cancelled
deriving DecidableEq, Repr

/-- The remote DVID store as an oracle: the response
`makeRequestWithCredentials` delivers for a GET of each URL — `mergeDoc`
for `responseType: 'json'` requests (a `.merge` document: the ordered list
of child keys) and `leaf` for `responseType: 'arraybuffer'` requests (a
terminal `.ngmesh` leaf). -/
structure Server where
  mergeDoc : String → FetchResult (List String)
  leaf : String → FetchResult ArrayBuffer

/-- The shared `try { data.push(await makeRequestWithCredentials(...)) }
catch (e) { console.log(e) }` blocks of `downloadMergeFragment`
(`backend.ts` lines 110-118 and 138-148): fetch a terminal leaf at
`meshUrl`; on success contribute it as a one-element list; any rejection
is swallowed (logged) and contributes nothing. -/
def leafContribution (srv : Server) (meshUrl : String) : List ArrayBuffer :=
  match srv.leaf meshUrl with
  | FetchResult.ok response => [response]
  | _ => []

/-- One iteration of the `for (let key of keys)` loop of
`downloadMergeFragment` (`backend.ts` lines 102-151): what it appends to
`data` for one `key`. `recur` is the recursive call available for child
`.merge` documents (one recursion depth down). If `key` is the master key,
fetch its `.ngmesh` leaf (rejection swallowed). Otherwise fetch its
`.merge` document; on success resolve the returned child keys recursively
with `key` as the new master key; if any part of that chain rejects, fall
back to fetching the key's own `.ngmesh` leaf (rejection swallowed). -/
def downloadMergeHead (srv : Server) (keyBaseUrl : String)
    (recur : List String → String → Option (List ArrayBuffer))
    (masterKey key : String) : Option (List ArrayBuffer) :=
  if masterKey = key then
    some (leafContribution srv (keyBaseUrl ++ "/" ++ key ++ ".ngmesh"))
  else
    match srv.mergeDoc (keyBaseUrl ++ "/" ++ key ++ ".merge") with
    | FetchResult.ok response => recur response key
    | _ => some (leafContribution srv (keyBaseUrl ++ "/" ++ key ++ ".ngmesh"))

/-- The whole `for (let key of keys)` loop of `downloadMergeFragment`
(`backend.ts` lines 99-153) at one recursion depth: process the keys in
declared order, appending each key's contribution to `data` before the
next key's. -/
def downloadMergeLoop (srv : Server) (keyBaseUrl : String)
    (recur : List String → String → Option (List ArrayBuffer)) :
    List String → String → Option (List ArrayBuffer)
  | [], _ => some []
  | key :: rest, masterKey =>
    (downloadMergeHead srv keyBaseUrl recur masterKey key).bind fun hd =>
      (downloadMergeLoop srv keyBaseUrl recur rest masterKey).map fun tl =>
        hd ++ tl

/-- The resolver `DVIDMeshSource.downloadMergeFragment` (`backend.ts` lines
99-153), with the recursion depth bounded by `fuel`; `none` is fuel exhaustion (the
source has no depth or cycle guard and can recurse on server-provided data
indefinitely; no real outcome is mapped to `none`). -/
def downloadMergeFragment (srv : Server) (keyBaseUrl : String) :
    Nat → List String → String → Option (List ArrayBuffer)
  | 0, _, _ => none
  | fuel + 1, keys, masterKey =>
    downloadMergeLoop srv keyBaseUrl
      (downloadMergeFragment srv keyBaseUrl fuel) keys masterKey

/-- The contribution of one key of a resolve call when `fuel` recursion
depth remains for its child documents. -/
def keyContribution (srv : Server) (keyBaseUrl : String) (fuel : Nat)
    (masterKey key : String) : Option (List ArrayBuffer) :=
  downloadMergeHead srv keyBaseUrl
    (downloadMergeFragment srv keyBaseUrl fuel) masterKey key

theorem downloadMergeFragment_cons (srv : Server) (kb : String) (fuel : Nat)
    (key mk : String) (rest : List String) :
    downloadMergeFragment srv kb (fuel + 1) (key :: rest) mk =
      (keyContribution srv kb fuel mk key).bind fun hd =>
        (downloadMergeFragment srv kb (fuel + 1) rest mk).map fun tl =>
          hd ++ tl := rfl

theorem downloadMergeLoop_append (srv : Server) (kb : String)
    (recur : List String → String → Option (List ArrayBuffer))
    (xs ys : List String) (mk : String) :
    downloadMergeLoop srv kb recur (xs ++ ys) mk =
      (downloadMergeLoop srv kb recur xs mk).bind fun a =>
        (downloadMergeLoop srv kb recur ys mk).map fun b => a ++ b := by
  induction xs with
  | nil =>
    cases h : downloadMergeLoop srv kb recur ys mk <;>
      simp [downloadMergeLoop, h]
  | cons k ks ih =>
    simp only [List.cons_append, downloadMergeLoop, List.append_eq]
    rw [ih]
    cases downloadMergeHead srv kb recur mk k <;>
      cases downloadMergeLoop srv kb recur ks mk <;>
      cases downloadMergeLoop srv kb recur ys mk <;>
      simp [List.append_assoc]

theorem downloadMergeFragment_append (srv : Server) (kb : String)
    (fuel : Nat) (xs ys : List String) (mk : String) :
    downloadMergeFragment srv kb fuel (xs ++ ys) mk =
      (downloadMergeFragment srv kb fuel xs mk).bind fun a =>
        (downloadMergeFragment srv kb fuel ys mk).map fun b => a ++ b := by
  cases fuel with
  | zero => rfl
  | succ fuel => exact downloadMergeLoop_append srv kb _ xs ys mk

/-- C6: within one resolve call the child keys are processed in their
declared order and each key's contributed leaves are appended, in order,
before the next key's: the head of the key list contributes first — and a
non-master key's contribution is the complete recursive resolve of its
child document, so a subtree's leaves are exhausted before the next
sibling's begin (depth-first, left-to-right) — and splitting the key list
anywhere splits the leaf list at the matching point. -/
theorem C6_resolve_depth_first_order (srv : Server) (kb : String)
    (fuel : Nat) (key mk : String) (rest xs ys : List String) :
    (downloadMergeFragment srv kb (fuel + 1) (key :: rest) mk =
      (keyContribution srv kb fuel mk key).bind fun hd =>
        (downloadMergeFragment srv kb (fuel + 1) rest mk).map fun tl =>
          hd ++ tl) ∧
    (downloadMergeFragment srv kb fuel (xs ++ ys) mk =
      (downloadMergeFragment srv kb fuel xs mk).bind fun a =>
        (downloadMergeFragment srv kb fuel ys mk).map fun b => a ++ b) :=
  ⟨downloadMergeFragment_cons srv kb fuel key mk rest,
   downloadMergeFragment_append srv kb fuel xs ys mk⟩

/-- C2: a non-master key whose `.merge` fetch rejects contributes exactly
its fallback leaf fetch (one leaf on success, nothing on failure), and the
resolve call still returns the sibling branches' leaves around it — the
failing branch alone never rejects the call. -/
theorem C2_branch_fallback (srv : Server) (kb : String) (fuel : Nat)
    (pre post : List String) (key mk : String) (hkey : mk ≠ key)
    (hmerge : ∀ doc, srv.mergeDoc (kb ++ "/" ++ key ++ ".merge") ≠
      FetchResult.ok doc) :
    (downloadMergeFragment srv kb fuel (pre ++ key :: post) mk =
      (downloadMergeFragment srv kb fuel pre mk).bind fun a =>
        (downloadMergeFragment srv kb fuel post mk).map fun b =>
          a ++ leafContribution srv (kb ++ "/" ++ key ++ ".ngmesh") ++ b) ∧
    ((∀ buf, srv.leaf (kb ++ "/" ++ key ++ ".ngmesh") ≠ FetchResult.ok buf) →
      leafContribution srv (kb ++ "/" ++ key ++ ".ngmesh") = []) := by
  constructor
  · cases fuel with
    | zero => rfl
    | succ fuel =>
      rw [downloadMergeFragment_append, downloadMergeFragment_cons]
      have hhead : keyContribution srv kb fuel mk key =
          some (leafContribution srv (kb ++ "/" ++ key ++ ".ngmesh")) := by
        unfold keyContribution downloadMergeHead
        rw [if_neg hkey]
        cases h : srv.mergeDoc (kb ++ "/" ++ key ++ ".merge") with
        | ok doc => exact absurd h (hmerge doc)
        | err => rfl
        | cancelled => rfl
      rw [hhead]
      cases downloadMergeFragment srv kb (fuel + 1) pre mk <;>
        cases downloadMergeFragment srv kb (fuel + 1) post mk <;>
        simp [List.append_assoc]
  · intro hleaf
    unfold leafContribution
    cases h : srv.leaf (kb ++ "/" ++ key ++ ".ngmesh") with
    | ok buf => exact absurd h (hleaf buf)
    | err => rfl
    | cancelled => rfl

/-- A store for the C2 witness: key `x` has a leaf but no merge document,
key `y` has neither, key `r` (the master) has a leaf. -/
def srvBranchFail : Server where
  mergeDoc := fun _ => FetchResult.err
  leaf := fun u =>
    if u = "b" ++ "/" ++ "x" ++ ".ngmesh" then FetchResult.ok [1]
    else if u = "b" ++ "/" ++ "r" ++ ".ngmesh" then FetchResult.ok [9]
    else FetchResult.err

/-- Witness for C2: with branch `y` failing both its `.merge` fetch and its
fallback leaf fetch, the resolve call over `[x, y, r]` (master `r`) still
succeeds and returns the leaves of `x` and `r`. -/
theorem C2_branch_fallback_witness :
    downloadMergeFragment srvBranchFail "b" 1 (["x"] ++ "y" :: ["r"]) "r" =
      some [[1], [9]] := by
  have h := (C2_branch_fallback srvBranchFail "b" 1 ["x"] ["r"] "y" "r"
    (by decide) (fun doc => by simp [srvBranchFail])).1
  rw [h]
  decide

/-- A store for the C4 counterexample: every fetch rejects. -/
def srvAllFail : Server where
  mergeDoc := fun _ => FetchResult.err
  leaf := fun _ => FetchResult.err

/-- Counterexample for C4: the claim says that when the master key's
terminal-leaf fetch fails the error propagates to the caller of the
resolve call. In the source the master-key branch wraps its fetch in
`try { ... } catch(e) { console.log(e) }` (`backend.ts` lines 110-118), so
the rejection is swallowed: resolving `[m]` with master `m` against a
store whose every fetch rejects completes successfully with the empty leaf
list instead of propagating an error. -/
theorem C4_master_counterexample :
    srvAllFail.leaf ("base" ++ "/" ++ "m" ++ ".ngmesh") = FetchResult.err ∧
    downloadMergeFragment srvAllFail "base" 1 ["m"] "m" = some [] := by
  constructor
  · rfl
  · decide

/-- C4 (amended): for a key equal to the master key the resolver fetches
the terminal leaf directly at the key's `.ngmesh` URL; on success that key
contributes exactly a one-element leaf list; on failure the rejection is
swallowed (logged), the key contributes zero leaves, and the resolve call
still completes with its siblings' leaves — no error propagates. -/
theorem C4_master_leaf_amended (srv : Server) (kb : String) (fuel : Nat)
    (pre post : List String) (mk : String) :
    (downloadMergeFragment srv kb fuel (pre ++ mk :: post) mk =
      (downloadMergeFragment srv kb fuel pre mk).bind fun a =>
        (downloadMergeFragment srv kb fuel post mk).map fun b =>
          a ++ leafContribution srv (kb ++ "/" ++ mk ++ ".ngmesh") ++ b) ∧
    (∀ buf, srv.leaf (kb ++ "/" ++ mk ++ ".ngmesh") = FetchResult.ok buf →
      leafContribution srv (kb ++ "/" ++ mk ++ ".ngmesh") = [buf]) ∧
    ((∀ buf, srv.leaf (kb ++ "/" ++ mk ++ ".ngmesh") ≠ FetchResult.ok buf) →
      leafContribution srv (kb ++ "/" ++ mk ++ ".ngmesh") = []) := by
  refine ⟨?_, fun buf hbuf => by simp [leafContribution, hbuf], fun hleaf => ?_⟩
  · cases fuel with
    | zero => rfl
    | succ fuel =>
      rw [downloadMergeFragment_append, downloadMergeFragment_cons]
      have hhead : keyContribution srv kb fuel mk mk =
          some (leafContribution srv (kb ++ "/" ++ mk ++ ".ngmesh")) := by
        unfold keyContribution downloadMergeHead
        rw [if_pos rfl]
      rw [hhead]
      cases downloadMergeFragment srv kb (fuel + 1) pre mk <;>
        cases downloadMergeFragment srv kb (fuel + 1) post mk <;>
        simp [List.append_assoc]
  · unfold leafContribution
    cases h : srv.leaf (kb ++ "/" ++ mk ++ ".ngmesh") with
    | ok buf => exact absurd h (hleaf buf)
    | err => rfl
    | cancelled => rfl

/-- A store for the C4 witness: the master's leaf is present, nothing else
is. -/
def srvMasterLeaf : Server where
  mergeDoc := fun _ => FetchResult.err
  leaf := fun u =>
    if u = "b" ++ "/" ++ "m" ++ ".ngmesh" then FetchResult.ok [5]
    else FetchResult.err

/-- Witness for C4 (amended): a single-master graph resolves to exactly the
master's own terminal leaf. -/
theorem C4_master_leaf_amended_witness :
    downloadMergeFragment srvMasterLeaf "b" 1 ([] ++ "m" :: []) "m" =
      some [[5]] := by
  have h := (C4_master_leaf_amended srvMasterLeaf "b" 1 [] [] "m").1
  have h2 := (C4_master_leaf_amended srvMasterLeaf "b" 1 [] [] "m").2.1 [5]
    (by simp [srvMasterLeaf])
  rw [h, h2]
  decide

/-- A `DataView.getUint32(off, true)` read: the little-endian 32-bit unsigned
integer formed by the four bytes at byte offset `off`, or `none` when
fewer than four bytes remain there (the `DataView` read throws a
`RangeError`). -/
def getUint32LE (buf : ArrayBuffer) (off : Nat) : Option Nat :=
  match buf.drop off with
  | b0 :: b1 :: b2 :: b3 :: _ =>
    some (b0 + 256 * b1 + 65536 * b2 + 16777216 * b3)
  | _ => none

/-- A 32-bit little-endian unsigned integer stream: the byte list split
into 4-byte words, `none` when its length is not a multiple of 4. -/
def parseUint32Stream : ArrayBuffer → Option (List Nat)
  | [] => some []
  | b0 :: b1 :: b2 :: b3 :: rest =>
    (parseUint32Stream rest).map
      fun l => (b0 + 256 * b1 + 65536 * b2 + 16777216 * b3) :: l
  | _ => none

/-- A decoded mesh geometry: the vertex position buffer (kept as its raw
bytes, 12 per vertex — the float reading is out of scope) and the
triangle index buffer. -/
structure Geometry where
  positions : List Nat
  indices : List Nat
deriving DecidableEq, Repr

/-- Modelled from the spec: `decodeTriangleVertexPositionsAndIndices`
(`neuroglancer/mesh/backend`), the parser `decodeFragmentChunk` invokes,
is not part of this repository. Per §4.3 of the spec it interprets
`numVertices` 12-byte position triples starting at `vertexByteOffset` and
the remaining bytes as a 32-bit unsigned index stream whose length must be
a multiple of 3; a vertex region truncated short of the declared count, or
a bad index stream, is a decode error. -/
def decodeTriangleVertexPositionsAndIndices (buf : ArrayBuffer)
    (vertexByteOffset numVertices : Nat) : Except Unit Geometry :=
  let body := buf.drop vertexByteOffset
  if body.length < 12 * numVertices then Except.error ()
  else
    match parseUint32Stream (body.drop (12 * numVertices)) with
    | none => Except.error ()
    | some idxs =>
      if idxs.length % 3 = 0 then
        Except.ok ⟨body.take (12 * numVertices), idxs⟩
      else Except.error ()

/-- From `backend.ts` lines 66-73, `decodeFragmentChunk`: read the vertex count
as a little-endian `Uint32` at byte offset 0 of the response and hand the
response, `vertexByteOffset = 4` and the count, unchanged, to the
position/index parser; the `assignMeshFragmentData` hand-off to the chunk
is the returned geometry. -/
def decodeFragmentChunk (response : ArrayBuffer) : Except Unit Geometry :=
  match getUint32LE response 0 with
  | none => Except.error ()
  | some numVertices =>
    decodeTriangleVertexPositionsAndIndices response 4 numVertices

/-- The first loop of `decodeFragmentChunkM` (`backend.ts` lines 76-81):
read each response's vertex count as a little-endian `Uint32` at its byte
offset 0, collecting `numVerticesArray` in response order. -/
def readNumVerticesArray : List ArrayBuffer → Option (List Nat)
  | [] => some []
  | response :: rest =>
    match getUint32LE response 0 with
    | none => none
    | some numVertices =>
      (readNumVerticesArray rest).map fun l => numVertices :: l

/-- Modelled from the spec: the merging core of
`decodeTriangleVertexPositionsAndIndicesM` (`neuroglancer/mesh/backend`),
which is not part of this repository. Per §4.3's `decodeMerged`, decode
each leaf independently against its declared vertex count, concatenate the
position buffers in leaf order, and concatenate the index buffers with a
running vertex-offset add: `offset` starts at 0 and grows by each decoded
leaf's declared vertex count. -/
def decodeMergedGo (vertexByteOffset : Nat) :
    List (ArrayBuffer × Nat) → Nat → Except Unit Geometry
  | [], _ => Except.ok ⟨[], []⟩
  | (buf, count) :: rest, offset =>
    match decodeTriangleVertexPositionsAndIndices buf vertexByteOffset count with
    | Except.error e => Except.error e
    | Except.ok g =>
      match decodeMergedGo vertexByteOffset rest (offset + count) with
      | Except.error e => Except.error e
      | Except.ok gs =>
        Except.ok ⟨g.positions ++ gs.positions,
          g.indices.map (fun i => i + offset) ++ gs.indices⟩

/-- Modelled from the spec: `decodeTriangleVertexPositionsAndIndicesM`
pairs each response with its declared vertex count and merges them with a
running offset starting at 0. -/
def decodeTriangleVertexPositionsAndIndicesM (responses : List ArrayBuffer)
    (vertexByteOffset : Nat) (numVerticesArray : List Nat) :
    Except Unit Geometry :=
  decodeMergedGo vertexByteOffset (responses.zip numVerticesArray) 0

/-- From `backend.ts` lines 75-87, `decodeFragmentChunkM`: read each response's
vertex count, then decode and merge all responses with
`vertexByteOffset = 4` and the collected counts. -/
def decodeFragmentChunkM (responses : List ArrayBuffer) :
    Except Unit Geometry :=
  match readNumVerticesArray responses with
  | none => Except.error ()
  | some numVerticesArray =>
    decodeTriangleVertexPositionsAndIndicesM responses 4 numVerticesArray

/-- Index concatenation with a running vertex-count offset: leaf `i`'s raw
indices shifted by `offset` plus the sum of the preceding leaves' counts. -/
def offsetIndices : List (List Nat) → List Nat → Nat → List Nat
  | idxs :: moreIdxs, count :: moreCounts, offset =>
    (idxs.map fun i => i + offset) ++
      offsetIndices moreIdxs moreCounts (offset + count)
  | _, _, _ => []

theorem readNumVerticesArray_length (responses : List ArrayBuffer) :
    ∀ counts, readNumVerticesArray responses = some counts →
      counts.length = responses.length := by
  induction responses with
  | nil => intro counts h; cases h; rfl
  | cons r rest ih =>
    intro counts h
    unfold readNumVerticesArray at h
    cases hr : getUint32LE r 0 with
    | none => rw [hr] at h; cases h
    | some n =>
      rw [hr] at h
      cases ht : readNumVerticesArray rest with
      | none => rw [ht] at h; cases h
      | some tl =>
        rw [ht] at h
        cases h
        simp [ih tl ht]

theorem decodeMergedGo_ok (off : Nat) (pairs : List (ArrayBuffer × Nat)) :
    ∀ (parts : List Geometry) (offset : Nat),
      List.Forall₂ (fun (bc : ArrayBuffer × Nat) g =>
        decodeTriangleVertexPositionsAndIndices bc.1 off bc.2 =
          Except.ok g) pairs parts →
      decodeMergedGo off pairs offset =
        Except.ok ⟨(parts.map Geometry.positions).flatten,
          offsetIndices (parts.map Geometry.indices)
            (pairs.map Prod.snd) offset⟩ := by
  induction pairs with
  | nil =>
    intro parts offset h
    cases h
    simp [decodeMergedGo, offsetIndices]
  | cons bc rest ih =>
    intro parts offset h
    obtain ⟨buf, count⟩ := bc
    cases h with
    | cons h1 h2 =>
      simp only [decodeMergedGo, h1, ih _ _ h2, List.map_cons,
        List.flatten_cons, offsetIndices]

theorem offsetIndices_parts (parts : List Geometry) :
    ∀ (counts : List Nat) (offset : Nat), parts.length ≤ counts.length →
      offsetIndices (parts.map Geometry.indices) counts offset =
        (List.ofFn fun i : Fin parts.length =>
          ((parts.get i).indices).map fun x =>
            x + offset + ((counts.take i.1).sum)).flatten := by
  induction parts with
  | nil => intro counts offset h; simp [offsetIndices]
  | cons g gs ih =>
    intro counts offset h
    cases counts with
    | nil => simp at h
    | cons c cs =>
      have h' : gs.length ≤ cs.length := by simpa using h
      rw [List.ofFn_succ, List.flatten_cons]
      show (g.indices.map fun i => i + offset) ++
          offsetIndices (gs.map Geometry.indices) cs (offset + c) = _
      rw [ih cs (offset + c) h']
      congr 1
      have hfun : (fun i : Fin gs.length =>
          List.map (fun x => x + (offset + c) + ((List.take i.1 cs).sum))
            (gs.get i).indices) =
          (fun i : Fin gs.length =>
          List.map (fun x => x + offset + (c + (List.take i.1 cs).sum))
            (gs.get i).indices) :=
        funext fun i => List.map_congr_left fun x _ => by omega
      exact congrArg (fun f => (List.ofFn f).flatten) hfun

/-- C7: for a leaf list whose headers declare vertex counts `v_i` and whose
leaves each decode to a geometry, the merged decode produces one vertex
buffer that is the concatenation of the leaves' vertex arrays in leaf
order, and one index buffer that is the concatenation, in leaf order, of
each leaf's indices shifted by `offset_i = v_0 + ... + v_(i-1)` (so
`offset_0 = 0`); and when leaf `i`'s raw indices are below its declared
count, every index it contributes lies in `[offset_i, offset_i + v_i)`. -/
theorem C7_decode_merged_offsets (L : List ArrayBuffer) (counts : List Nat)
    (parts : List Geometry)
    (hcounts : readNumVerticesArray L = some counts)
    (hparts : List.Forall₂ (fun (bc : ArrayBuffer × Nat) g =>
      decodeTriangleVertexPositionsAndIndices bc.1 4 bc.2 = Except.ok g)
      (L.zip counts) parts) :
    decodeFragmentChunkM L =
      Except.ok ⟨(parts.map Geometry.positions).flatten,
        (List.ofFn fun i : Fin parts.length =>
          ((parts.get i).indices).map fun x =>
            x + ((counts.take i.1).sum)).flatten⟩ ∧
    (∀ i : Fin parts.length,
      (∀ x ∈ (parts.get i).indices, x < counts.getD i.1 0) →
      ∀ y ∈ ((parts.get i).indices).map fun x =>
          x + ((counts.take i.1).sum),
        (counts.take i.1).sum ≤ y ∧
          y < (counts.take i.1).sum + counts.getD i.1 0) := by
  constructor
  · have hlen : counts.length = L.length := readNumVerticesArray_length L counts hcounts
    have hplen : parts.length ≤ counts.length := by
      have := hparts.length_eq
      rw [List.length_zip, hlen] at this
      omega
    have hgo := decodeMergedGo_ok 4 (L.zip counts) parts 0 hparts
    have hsnd : (L.zip counts).map Prod.snd = counts :=
      List.map_snd_zip L counts (le_of_eq hlen)
    rw [hsnd] at hgo
    rw [offsetIndices_parts parts counts 0 hplen] at hgo
    have hm : decodeFragmentChunkM L = decodeMergedGo 4 (L.zip counts) 0 := by
      unfold decodeFragmentChunkM
      rw [hcounts]
      rfl
    have h0 : (List.ofFn fun i : Fin parts.length =>
        ((parts.get i).indices).map fun x =>
          x + 0 + ((counts.take i.1).sum)) =
        (List.ofFn fun i : Fin parts.length =>
        ((parts.get i).indices).map fun x =>
          x + ((counts.take i.1).sum)) := rfl
    rw [hm, hgo, h0]
  · intro i hbound y hy
    rw [List.mem_map] at hy
    obtain ⟨x, hx, rfl⟩ := hy
    have := hbound x hx
    omega

/-- The spec's first concrete leaf: 3 declared vertices, 36 position
bytes, one triangle with indices 0, 1, 2. -/
def leafA : ArrayBuffer :=
  [3, 0, 0, 0] ++ List.replicate 36 0 ++
    [0, 0, 0, 0, 1, 0, 0, 0, 2, 0, 0, 0]

/-- The spec's second concrete leaf, adjusted to a well-formed index
stream: 2 declared vertices, 24 position bytes, one triangle with indices
0, 1, 0. -/
def leafB : ArrayBuffer :=
  [2, 0, 0, 0] ++ List.replicate 24 0 ++
    [0, 0, 0, 0, 1, 0, 0, 0, 0, 0, 0, 0]

/-- Witness for C7: merging the two concrete leaves yields 60 position
bytes (5 vertices) and the second leaf's indices shifted by the first
leaf's count 3: `[0, 1, 2] ++ [3, 4, 3]`. -/
theorem C7_decode_merged_offsets_witness :
    decodeFragmentChunkM [leafA, leafB] =
      Except.ok ⟨List.replicate 36 0 ++ List.replicate 24 0,
        [0, 1, 2, 3, 4, 3]⟩ := by
  have h := (C7_decode_merged_offsets [leafA, leafB] [3, 2]
    [⟨List.replicate 36 0, [0, 1, 2]⟩, ⟨List.replicate 24 0, [0, 1, 0]⟩]
    rfl
    (List.Forall₂.cons rfl (List.Forall₂.cons rfl List.Forall₂.nil))).1
  rw [h]
  exact congrArg Except.ok (by decide)

/-- C9: decoding a terminal leaf reads the vertex count as the 4-byte
little-endian unsigned integer at byte offset 0 and passes the declared
count unchanged to the position/index parser with `vertexByteOffset = 4`;
the parser at offset 4 reads exactly the bytes after the first four, i.e.
the vertex data begins at byte offset 4; and the merged decoder reads each
response's count the same way. -/
theorem C9_leaf_header_layout (b0 b1 b2 b3 : Nat) (rest : ArrayBuffer) :
    (decodeFragmentChunk (b0 :: b1 :: b2 :: b3 :: rest) =
      decodeTriangleVertexPositionsAndIndices (b0 :: b1 :: b2 :: b3 :: rest)
        4 (b0 + 256 * b1 + 65536 * b2 + 16777216 * b3)) ∧
    (∀ count, decodeTriangleVertexPositionsAndIndices
        (b0 :: b1 :: b2 :: b3 :: rest) 4 count =
      decodeTriangleVertexPositionsAndIndices rest 0 count) ∧
    (∀ more, readNumVerticesArray ((b0 :: b1 :: b2 :: b3 :: rest) :: more) =
      (readNumVerticesArray more).map
        fun l => (b0 + 256 * b1 + 65536 * b2 + 16777216 * b3) :: l) :=
  ⟨rfl, fun _ => rfl, fun _ => rfl⟩

/-- The `.catch` fallback of `DVIDMeshSource.downloadFragment`
(`backend.ts` lines 169-175): fetch the single terminal leaf
`fragmentId.ngmesh` and decode it alone; a rejection of this fetch (error
or cancellation) propagates, as does a decode error — there is no further
recovery. -/
def fallbackFragment (srv : Server) (keyBaseUrl fragmentId : String) :
    FetchResult Geometry :=
  match srv.leaf (keyBaseUrl ++ "/" ++ fragmentId ++ ".ngmesh") with
  | FetchResult.ok response =>
    match decodeFragmentChunk response with
    | Except.ok g => FetchResult.ok g
    | Except.error _ => FetchResult.err
  | FetchResult.err => FetchResult.err
  | FetchResult.cancelled => FetchResult.cancelled

/-- The orchestrator `DVIDMeshSource.downloadFragment` (`backend.ts` lines
155-176): fetch
the fragment's `.merge` document; on success resolve the merge graph with
the fragment id as master key and decode the merged leaves; if anything in
that chain rejects — the `.merge` fetch (whether with an error or with a
cancellation) or the merged decode — the indiscriminate `.catch` switches
to the single-leaf fallback. `none` is resolver fuel exhaustion. -/
def downloadFragment (srv : Server) (keyBaseUrl fragmentId : String)
    (fuel : Nat) : Option (FetchResult Geometry) :=
  match srv.mergeDoc (keyBaseUrl ++ "/" ++ fragmentId ++ ".merge") with
  | FetchResult.ok response =>
    match downloadMergeFragment srv keyBaseUrl fuel response fragmentId with
    | none => none
    | some data =>
      match decodeFragmentChunkM data with
      | Except.ok g => some (FetchResult.ok g)
      | Except.error _ => some (fallbackFragment srv keyBaseUrl fragmentId)
  | _ => some (fallbackFragment srv keyBaseUrl fragmentId)

/-- C3: if the primary assembly path fails — the `.merge` fetch for the
fragment id rejects, or the merged decode of the resolved leaves errors —
the orchestrator runs exactly the single-leaf fallback; and when the
primary path produces a geometry (even an empty one) the result is that
geometry outright, an expression that never consults the fallback leaf, so
the two paths are mutually exclusive. -/
theorem C3_primary_fallback_exclusive (srv : Server) (kb frag : String)
    (fuel : Nat) :
    ((∀ doc, srv.mergeDoc (kb ++ "/" ++ frag ++ ".merge") ≠
        FetchResult.ok doc) →
      downloadFragment srv kb frag fuel =
        some (fallbackFragment srv kb frag)) ∧
    (∀ keys data, srv.mergeDoc (kb ++ "/" ++ frag ++ ".merge") =
        FetchResult.ok keys →
      downloadMergeFragment srv kb fuel keys frag = some data →
      decodeFragmentChunkM data = Except.error () →
      downloadFragment srv kb frag fuel =
        some (fallbackFragment srv kb frag)) ∧
    (∀ keys data g, srv.mergeDoc (kb ++ "/" ++ frag ++ ".merge") =
        FetchResult.ok keys →
      downloadMergeFragment srv kb fuel keys frag = some data →
      decodeFragmentChunkM data = Except.ok g →
      downloadFragment srv kb frag fuel = some (FetchResult.ok g)) := by
  refine ⟨fun hmerge => ?_, fun keys data h1 h2 h3 => ?_,
    fun keys data g h1 h2 h3 => ?_⟩
  · unfold downloadFragment
    cases h : srv.mergeDoc (kb ++ "/" ++ frag ++ ".merge") with
    | ok doc => exact absurd h (hmerge doc)
    | err => rfl
    | cancelled => rfl
  · simp only [downloadFragment, h1, h2, h3]
  · simp only [downloadFragment, h1, h2, h3]

/-- A store for the C3 witness: no merge documents exist, the fragment's
own terminal leaf is a valid zero-vertex mesh. -/
def srvMergeless : Server where
  mergeDoc := fun _ => FetchResult.err
  leaf := fun _ => FetchResult.ok [0, 0, 0, 0]

/-- Witness for C3: with the `.merge` fetch failing, the orchestrator runs
the fallback, which decodes the fragment's own leaf to the empty
geometry. -/
theorem C3_primary_fallback_exclusive_witness :
    downloadFragment srvMergeless "b" "f" 1 =
        some (fallbackFragment srvMergeless "b" "f") ∧
      fallbackFragment srvMergeless "b" "f" = FetchResult.ok ⟨[], []⟩ :=
  ⟨(C3_primary_fallback_exclusive srvMergeless "b" "f" 1).1
    (fun doc h => by cases h), by decide⟩

/-- A store for the C5 counterexample: the fragment's `.merge` fetch
rejects with a cancellation, its terminal leaf is present and valid. -/
def srvCancelledMerge : Server where
  mergeDoc := fun _ => FetchResult.cancelled
  leaf := fun _ => FetchResult.ok [0, 0, 0, 0]

/-- Counterexample for C5: the claim says a cancellation outcome of the
primary path propagates immediately and never triggers the
primary-to-fallback switch. The `.catch` of `downloadFragment`
(`backend.ts` lines 169-175) does not inspect the rejection, so a
cancelled primary `.merge` fetch takes the same fallback route as any
failure: here the fallback single-leaf fetch runs and the call completes
with a decoded geometry instead of a cancellation outcome. -/
theorem C5_cancellation_counterexample :
    srvCancelledMerge.mergeDoc ("b" ++ "/" ++ "f" ++ ".merge") =
        FetchResult.cancelled ∧
      downloadFragment srvCancelledMerge "b" "f" 1 =
        some (FetchResult.ok ⟨[], []⟩) :=
  ⟨rfl, by decide⟩

/-- C5 (amended): a cancellation outcome of the primary `.merge` fetch is
treated by the indiscriminate `.catch` exactly like any other failure: the
single-leaf fallback is attempted; the overall call still ends in a
cancellation outcome only because the fallback fetch itself observes the
cancelled token and rejects with a cancellation in turn. -/
theorem C5_cancellation_amended (srv : Server) (kb frag : String)
    (fuel : Nat)
    (h : srv.mergeDoc (kb ++ "/" ++ frag ++ ".merge") =
      FetchResult.cancelled) :
    downloadFragment srv kb frag fuel =
        some (fallbackFragment srv kb frag) ∧
      (srv.leaf (kb ++ "/" ++ frag ++ ".ngmesh") = FetchResult.cancelled →
        downloadFragment srv kb frag fuel =
          some FetchResult.cancelled) := by
  constructor
  · unfold downloadFragment
    rw [h]
  · intro hleaf
    unfold downloadFragment fallbackFragment
    rw [h, hleaf]

/-- A store for the C5 witness: every fetch observes the cancelled token. -/
def srvAllCancelled : Server where
  mergeDoc := fun _ => FetchResult.cancelled
  leaf := fun _ => FetchResult.cancelled

/-- Witness for C5 (amended): with both the primary `.merge` fetch and the
fallback leaf fetch cancelled, the whole call ends in a cancellation
outcome. -/
theorem C5_cancellation_amended_witness :
    downloadFragment srvAllCancelled "b" "f" 1 =
      some FetchResult.cancelled :=
  (C5_cancellation_amended srvAllCancelled "b" "f" 1 rfl).2 rfl

end DVID
